import Mathlib

-- Shallow embedding of setup.py from mecab-python3.
-- Lines of text are modelled as List Char; a file's text is a List Char.
-- Reading a missing file, and Python sys.exit, are modelled with Option.

set_option autoImplicit false

-- Python str.splitlines for newline-delimited text: splits on each
-- newline character, and a trailing newline does not produce a final
-- empty line.  (setup.py line 33: read_file("README.md").splitlines())
def pySplitlines : List Char → List (List Char)
  | [] => []
  | c :: r =>
    if c = '\n' then [] :: pySplitlines r
    else
      match pySplitlines r with
      | [] => [[c]]
      | l :: ls => (c :: l) :: ls

-- The scanning loop of read_and_trim_readme (setup.py lines 36-50).
-- The Bool argument is the found_first_header flag.  The result is the
-- suffix readme[start:] at the break point, or none when the for-loop
-- falls through to its else clause (which does sys.exit(1)).
def scanReadme : Bool → List (List Char) → Option (List (List Char))
  | _, [] => none
  | true, l :: rest => if l = [] then scanReadme true rest else some (l :: rest)
  | false, l :: rest =>
      if l.head? = some '#' then scanReadme true rest else scanReadme false rest

-- read_and_trim_readme (setup.py lines 32-52): split the document into
-- lines, scan for the first header line and the first non-blank line
-- after it, and join the remainder with newlines.  none models the
-- fatal branch: sys.stderr.write("Failed to parse README.md\n") followed
-- by sys.exit(1).
def read_and_trim_readme (doc : List Char) : Option (List Char) :=
  (scanReadme false (pySplitlines doc)).map (fun ls => List.intercalate ['\n'] ls)

-- Python whitespace test for the characters str.strip() removes
-- (restricted to the ASCII whitespace that can occur in the inputs
-- this build script reads).
def isSpaceChar (c : Char) : Bool :=
  c = ' ' || c = '\t' || c = '\n' || c = '\r' || c = '\x0b' || c = '\x0c'

-- Python str.lstrip()
def lstripL (l : List Char) : List Char := l.dropWhile isSpaceChar

-- Python str.rstrip()
def rstripL (l : List Char) : List Char := (l.reverse.dropWhile isSpaceChar).reverse

-- Python str.strip()
def stripL (l : List Char) : List Char := rstripL (lstripL l)

-- Python file-object line iteration (for line in fp): each line keeps
-- its trailing newline; a final chunk without a newline is still a line.
def pyFileLines : List Char → List (List Char)
  | [] => []
  | c :: r =>
    if c = '\n' then ['\n'] :: pyFileLines r
    else
      match pyFileLines r with
      | [] => [[c]]
      | l :: ls => (c :: l) :: ls

-- The parsing loop of dicdir_from_mecabrc (setup.py lines 161-175),
-- over the lines of an open mecabrc file.  Each line is stripped; blank
-- lines and lines whose first character is a semicolon are skipped; a
-- line whose first six characters are dicdir has the rest taken as the
-- value after removing leading whitespace and an optional equals sign
-- with the whitespace around it; an empty rest returns None at once,
-- while a value that becomes empty after removing the equals sign falls
-- through to the next line.
-- The body of the dicdir branch (setup.py lines 167-174), acting on
-- the already left-stripped text v after the dicdir key.  some r means
-- the loop returns r (r itself none for the bare-key return None, some
-- value for a found value); none means the loop falls through to the
-- next line (the value was empty after removing the equals sign).
def dicdirValueStep (v : List Char) : Option (Option (List Char)) :=
  if v = [] then some none
  else if v.head? = some '=' then
    if lstripL (v.drop 1) = [] then none else some (some (lstripL (v.drop 1)))
  else some (some v)

def dicdir_from_mecabrc_lines : List (List Char) → Option (List Char)
  | [] => none
  | l :: rest =>
    if stripL l = [] then dicdir_from_mecabrc_lines rest
    else if (stripL l).head? = some ';' then dicdir_from_mecabrc_lines rest
    else if (stripL l).take 6 = "dicdir".toList then
      match dicdirValueStep (lstripL ((stripL l).drop 6)) with
      | some r => r
      | none => dicdir_from_mecabrc_lines rest
    else dicdir_from_mecabrc_lines rest

-- Abstraction of the ambient process state that setup.py consults:
-- the environment, the filesystem directory test, file reading (none
-- models IOError/OSError on open), non-recursive directory listing
-- (glob.glob("*") run inside the directory), path absolutisation and
-- the platform path separator os.pathsep.
structure Sys where
  env : String → Option String
  isDir : String → Bool
  readFile : String → Option String
  listDir : String → List String
  abspath : String → String
  pathsep : Char

-- The test Python spells if d and os.path.isdir(d).
def validDir (s : Sys) (d : String) : Bool := (d != "") && s.isDir d

-- Python str.split(sep) for a one-character separator: split at every
-- occurrence, keeping empty fields, so the result is one field more
-- than the number of separators.
def splitSepL (sep : Char) : List Char → List (List Char)
  | [] => [[]]
  | c :: r =>
    if c = sep then [] :: splitSepL sep r
    else
      match splitSepL sep r with
      | [] => [[c]]
      | l :: ls => (c :: l) :: ls

def pySplitSep (sep : Char) (s : String) : List String :=
  (splitSepL sep s.toList).map (fun l => String.mk l)

-- dicdir_from_mecabrc (setup.py lines 159-177): open the file (an
-- IOError/OSError yields None) and run the parsing loop on its lines.
def dicdir_from_mecabrc (s : Sys) (rc : String) : Option String :=
  (s.readFile rc).bind fun content =>
    (dicdir_from_mecabrc_lines (pyFileLines content.toList)).map (fun l => String.mk l)

-- The fixed fallback mecabrc locations (setup.py line 196).
def fallbackRcs : List String := ["/usr/local/etc/mecabrc", "/etc/mecabrc"]

-- The fallback loop of mecab_dictionary_contents (setup.py lines
-- 195-200): first configuration file whose dicdir value names an
-- existing directory wins.
def firstRcDicdir (s : Sys) : List String → Option String
  | [] => none
  | rc :: rest =>
    match dicdir_from_mecabrc s rc with
    | some v => if validDir s v then some (s.abspath v) else firstRcDicdir s rest
    | none => firstRcDicdir s rest

-- Stage 1 of mecab_dictionary_contents (setup.py lines 182-185): the
-- MECAB_DICDIR environment variable, when it names an existing
-- directory.
def dicdirFromEnvDicdir (s : Sys) : Option String :=
  match s.env "MECAB_DICDIR" with
  | some d => if validDir s d then some (s.abspath d) else none
  | none => none

-- Stage 2 (setup.py lines 186-190): the first entry of the
-- path-separator-delimited MECAB_DICPATH that is an existing directory.
def dicdirFromEnvDicpath (s : Sys) : Option String :=
  match s.env "MECAB_DICPATH" with
  | some p => ((pySplitSep s.pathsep p).find? (validDir s)).map s.abspath
  | none => none

-- Stage 3 (setup.py lines 191-194): the dicdir value parsed from the
-- file named by MECABRC, when it names an existing directory.
def dicdirFromEnvMecabrc (s : Sys) : Option String :=
  match s.env "MECABRC" with
  | some rc =>
    match dicdir_from_mecabrc s rc with
    | some v => if validDir s v then some (s.abspath v) else none
    | none => none
  | none => none

-- The resolution chain of mecab_dictionary_contents (setup.py lines
-- 181-200): each if dicdir is None block runs only when every earlier
-- stage produced nothing.
def resolvedDicdir (s : Sys) : Option String :=
  match dicdirFromEnvDicdir s with
  | some d => some d
  | none =>
    match dicdirFromEnvDicpath s with
    | some d => some d
    | none =>
      match dicdirFromEnvMecabrc s with
      | some d => some d
      | none => firstRcDicdir s fallbackRcs

-- mecab_dictionary_contents (setup.py lines 180-209): an unresolved
-- directory returns (None, []) without error; a resolved one is paired
-- with its glob listing.
def mecab_dictionary_contents (s : Sys) : Option String × List String :=
  match resolvedDicdir s with
  | none => (none, [])
  | some dicdir => (some dicdir, s.listDir dicdir)

-- The process working directory, the one piece of mutable process
-- state that setup.py lines 205-208 manipulate.
structure ProcState where
  cwd : String
deriving DecidableEq

-- The staging sequence of mecab_dictionary_contents (setup.py lines
-- 205-208): cwd = os.getcwd(); os.chdir(dicdir); dicfiles =
-- glob.glob("*"); os.chdir(cwd).  The enumeration step is a parameter
-- that may raise (Except.error); the code has no try/finally, so a
-- raised exception propagates with the working directory still set to
-- dicdir, and only the normal path runs the restoring os.chdir(cwd).
def stage_dictionary_listing (enum : String → Except String (List String))
    (dicdir : String) (st : ProcState) :
    Except (String × ProcState) (List String × ProcState) :=
  let cwd := st.cwd
  let st1 : ProcState := ⟨dicdir⟩
  match enum st1.cwd with
  | Except.error e => Except.error (e, st1)
  | Except.ok files => Except.ok (files, ⟨cwd⟩)

-- Python str.rfind for a single character: highest index holding the
-- character, or -1.
def rfindAux (c : Char) : List Char → Nat → Option Nat
  | [], _ => none
  | x :: r, i =>
    match rfindAux c r (i + 1) with
    | some j => some j
    | none => if x = c then some i else none

def pyRfind (c : Char) (l : List Char) : Int :=
  match rfindAux c l 0 with
  | some i => Int.ofNat i
  | none => -1

-- os.path.splitext on a POSIX path (genericpath._splitext with sep '/'
-- and extsep '.'): split at the last dot after the last slash, unless
-- every character between them is a dot (a leading-dot filename has no
-- extension).
def splitext (p : List Char) : List Char × List Char :=
  let sepIdx := pyRfind '/' p
  let dotIdx := pyRfind '.' p
  if sepIdx < dotIdx then
    let between := (p.drop (sepIdx + 1).toNat).take (dotIdx - sepIdx - 1).toNat
    if between.all (fun c => c = '.') then (p, [])
    else (p.take dotIdx.toNat, p.drop dotIdx.toNat)
  else (p, [])

-- SWIG_WRAPPER_MARKER (setup.py line 130).
def SWIG_WRAPPER_MARKER : List Char :=
  "# This file was automatically generated by SWIG".toList

-- discard_swig_wrappers (setup.py lines 129-145), as the list of files
-- the loop unlinks.  firstLine w is the first line of file w as next(fp)
-- returns it, trailing newline included; none models an OSError/IOError
-- while opening or reading.  A source whose extension is .i names a
-- sibling .py wrapper, which is removed exactly when its first line
-- starts with the marker.
def discard_swig_wrappers (firstLine : List Char → Option (List Char))
    (sources : List (List Char)) : List (List Char) :=
  sources.filterMap fun src =>
    let be := splitext src
    if be.2 = ".i".toList then
      let w := be.1 ++ ".py".toList
      match firstLine w with
      | some first =>
        if SWIG_WRAPPER_MARKER.isPrefixOf first then some w else none
      | none => none
    else none

-- The filter in maybe_build_libmecab_and_adjust_flags (setup.py line
-- 91): locale-category variable names.
def isLocaleVar (k : String) : Bool :=
  "LC_".toList.isPrefixOf k.toList || k == "LANG" || k == "LANGUAGE"

-- clocale_env construction (setup.py lines 89-93): copy every
-- non-locale entry of the ambient environment, then set LC_ALL to C.
-- An environment is an association list in iteration order; the dict
-- update appends the fresh LC_ALL binding (LC_ALL itself was filtered
-- out, since it starts with LC_).
def clocale_env (env : List (String × String)) : List (String × String) :=
  (env.filter fun kv => !(isLocaleVar kv.1)) ++ [("LC_ALL", "C")]

-- Dictionary lookup on an association list with unique keys: the first
-- binding of the key.
def envLookup (env : List (String × String)) (k : String) : Option String :=
  (env.find? fun kv => kv.1 == k).map Prod.snd

-- Python str.split() with no argument: split on runs of whitespace,
-- discarding empty fields.  The accumulator holds the current word
-- reversed.
def splitWsAux : List Char → List Char → List (List Char)
  | [], cur => if cur = [] then [] else [cur.reverse]
  | c :: r, cur =>
    if isSpaceChar c then
      if cur = [] then splitWsAux r [] else cur.reverse :: splitWsAux r []
    else splitWsAux r (c :: cur)

def pySplitWs (l : List Char) : List (List Char) := splitWsAux l []

-- Python line.partition("=")[2]: everything after the first equals
-- sign, or empty if there is none.
def afterFirstEq : List Char → List Char
  | [] => []
  | c :: r => if c = '=' then r else afterFirstEq r

-- The prefix tested by line.startswith("LIBS =") (setup.py line 79).
def libsLineMarker : List Char := "LIBS =".toList

-- The inner loop of the Makefile scan (setup.py lines 80-82): the
-- whitespace-separated tokens of the text after the first equals sign
-- whose first two characters are -l, with that prefix removed.
def libsFromLine (l : List Char) : List (List Char) :=
  (pySplitWs (afterFirstEq l)).filterMap
    (fun tok => if tok.take 2 = "-l".toList then some (tok.drop 2) else none)

-- The Makefile scan of maybe_build_libmecab_and_adjust_flags (setup.py
-- lines 78-83): find the first line starting with LIBS =, harvest its
-- -l tokens, and break.
def scanMakefileLibs : List (List Char) → List (List Char)
  | [] => []
  | l :: rest =>
    if libsLineMarker.isPrefixOf l then libsFromLine l else scanMakefileLibs rest

-- The bundled-mode link-library list (setup.py lines 75-83): mecab
-- followed by the harvested LIBS tokens.
def bundled_link_libraries (mklines : List (List Char)) : List (List Char) :=
  "mecab".toList :: scanMakefileLibs mklines

-- Concrete instances used to exercise the theorems below.

-- A filesystem in which the generated wrapper src/MeCab/MeCab.py exists
-- and its first line is the marker comment as SWIG actually writes it:
-- the marker text continued by the generator URL and a newline.
def rfFirstLineSwig : List Char → Option (List Char) := fun w =>
  if w = "src/MeCab/MeCab.py".toList
  then some ("# This file was automatically generated by SWIG (http://www.swig.org).\n".toList)
  else none

-- An ambient state where MECAB_DICDIR names an existing directory and
-- MECAB_DICPATH is also set: the first stage must win.
def sysDic1 : Sys :=
  { env := fun k =>
      if k = "MECAB_DICDIR" then some "/tmp/dic1"
      else if k = "MECAB_DICPATH" then some "/no/such:/tmp/dic2" else none,
    isDir := fun d => d = "/tmp/dic1" || d = "/tmp/dic2",
    readFile := fun _ => none,
    listDir := fun d => if d = "/tmp/dic1" then ["a.dic", "b.dic"] else [],
    abspath := fun d => d,
    pathsep := ':' }

-- An ambient state with MECAB_DICDIR unset and MECAB_DICPATH set to
-- /no/such:/tmp/dic2 where only /tmp/dic2 exists.
def sysDic2 : Sys :=
  { env := fun k => if k = "MECAB_DICPATH" then some "/no/such:/tmp/dic2" else none,
    isDir := fun d => d = "/tmp/dic2",
    readFile := fun _ => none,
    listDir := fun d => if d = "/tmp/dic2" then ["sys.dic"] else [],
    abspath := fun d => d,
    pathsep := ':' }

-- An ambient state in which no resolution source yields anything: no
-- relevant environment variables, no readable configuration files, no
-- directories.
def sysNone : Sys :=
  { env := fun _ => none,
    isDir := fun _ => false,
    readFile := fun _ => none,
    listDir := fun _ => [],
    abspath := fun d => d,
    pathsep := ':' }

-- Two ambient environments that differ only in locale-category
-- variables.
def envAmbient1 : List (String × String) :=
  [("PATH", "/usr/bin"), ("LANG", "ja_JP.UTF-8"), ("LC_COLLATE", "ja_JP.UTF-8")]

def envAmbient2 : List (String × String) :=
  [("PATH", "/usr/bin"), ("LC_ALL", "de_DE.UTF-8")]

-- Helper lemmas about the README scan.

lemma scanReadme_false_skip (pre t : List (List Char))
    (h : ∀ l ∈ pre, l.head? ≠ some '#') :
    scanReadme false (pre ++ t) = scanReadme false t := by
  induction pre with
  | nil => rfl
  | cons l pre ih =>
    have hl : l.head? ≠ some '#' := h l (List.mem_cons_self l pre)
    simp only [List.cons_append, scanReadme, if_neg hl]
    exact ih (fun x hx => h x (List.mem_cons_of_mem _ hx))

lemma scanReadme_true_skip_blanks (blanks t : List (List Char))
    (h : ∀ l ∈ blanks, l = []) :
    scanReadme true (blanks ++ t) = scanReadme true t := by
  induction blanks with
  | nil => rfl
  | cons l blanks ih =>
    have hl : l = [] := h l (List.mem_cons_self l blanks)
    simp only [List.cons_append, scanReadme, if_pos hl]
    exact ih (fun x hx => h x (List.mem_cons_of_mem _ hx))

lemma scanReadme_true_all_blank (blanks : List (List Char))
    (h : ∀ l ∈ blanks, l = []) :
    scanReadme true blanks = none := by
  induction blanks with
  | nil => rfl
  | cons l blanks ih =>
    have hl : l = [] := h l (List.mem_cons_self l blanks)
    simp only [scanReadme, if_pos hl]
    exact ih (fun x hx => h x (List.mem_cons_of_mem _ hx))

lemma scanReadme_false_none (ls : List (List Char))
    (h : ∀ l ∈ ls, l.head? ≠ some '#') :
    scanReadme false ls = none := by
  induction ls with
  | nil => rfl
  | cons l ls ih =>
    have hl : l.head? ≠ some '#' := h l (List.mem_cons_self l ls)
    simp only [scanReadme, if_neg hl]
    exact ih (fun x hx => h x (List.mem_cons_of_mem _ hx))

/-- C3: for every documentation input containing no line whose first
character is a hash mark, read_and_trim_readme never returns a
description: it reaches the for-else branch, which writes a diagnostic
to stderr and calls sys.exit(1) (modelled as none). -/
theorem readme_no_header_fatal (doc : List Char)
    (h : ∀ l ∈ pySplitlines doc, l.head? ≠ some '#') :
    read_and_trim_readme doc = none := by
  unfold read_and_trim_readme
  rw [scanReadme_false_none _ h]
  rfl

/-- Witness for C3 at a concrete headerless document. -/
theorem readme_no_header_fatal_witness :
    read_and_trim_readme ("MeCab wrapper\nno markdown header here".toList) = none :=
  readme_no_header_fatal ("MeCab wrapper\nno markdown header here".toList) (by decide)

/-- C4: read_and_trim_readme scans to the first line whose first
character is a hash mark, skips the blank lines immediately after it,
and returns the remaining lines joined with newlines. -/
theorem readme_trim_correct (doc : List Char) (pre blanks rest : List (List Char))
    (hl r : List Char)
    (hsplit : pySplitlines doc = pre ++ hl :: (blanks ++ r :: rest))
    (hpre : ∀ l ∈ pre, l.head? ≠ some '#')
    (hh : hl.head? = some '#')
    (hblanks : ∀ l ∈ blanks, l = [])
    (hr : r ≠ []) :
    read_and_trim_readme doc = some (List.intercalate ['\n'] (r :: rest)) := by
  unfold read_and_trim_readme
  rw [hsplit, scanReadme_false_skip pre _ hpre]
  have h1 : scanReadme false (hl :: (blanks ++ r :: rest))
      = scanReadme true (blanks ++ r :: rest) := by
    simp [scanReadme, hh]
  rw [h1, scanReadme_true_skip_blanks _ _ hblanks]
  simp [scanReadme, hr]

/-- Witness for C4: the documentation input of the claim yields exactly
the two body lines joined by a newline. -/
theorem readme_trim_correct_witness :
    read_and_trim_readme ("# Title\n\nBody line 1\nBody line 2".toList)
      = some ("Body line 1\nBody line 2".toList) := by
  have h := readme_trim_correct ("# Title\n\nBody line 1\nBody line 2".toList)
    [] [[]] ["Body line 2".toList] ("# Title".toList) ("Body line 1".toList)
    (by decide) (by decide) (by decide) (by decide) (by decide)
  rw [h]
  decide

/-- C10: read_and_trim_readme also hits the fatal sys.exit(1) branch
when a header line is present but every later line is blank: the
for-else fires whenever the scan finds no first retained line, not only
when no header exists. -/
theorem readme_header_no_body_fatal (doc : List Char)
    (pre blanks : List (List Char)) (hl : List Char)
    (hsplit : pySplitlines doc = pre ++ hl :: blanks)
    (hpre : ∀ l ∈ pre, l.head? ≠ some '#')
    (hh : hl.head? = some '#')
    (hblanks : ∀ l ∈ blanks, l = []) :
    read_and_trim_readme doc = none := by
  unfold read_and_trim_readme
  rw [hsplit, scanReadme_false_skip pre _ hpre]
  have h1 : scanReadme false (hl :: blanks) = scanReadme true blanks := by
    simp [scanReadme, hh]
  rw [h1, scanReadme_true_all_blank _ hblanks]
  rfl

/-- Witness for C10 at the two concrete documents of the claim. -/
theorem readme_header_no_body_fatal_witness :
    read_and_trim_readme ("# Title".toList) = none ∧
      read_and_trim_readme ("# Title\n\n".toList) = none :=
  ⟨readme_header_no_body_fatal ("# Title".toList) [] [] ("# Title".toList)
      (by decide) (by decide) (by decide) (by decide),
    readme_header_no_body_fatal ("# Title\n\n".toList) [] [[]] ("# Title".toList)
      (by decide) (by decide) (by decide) (by decide)⟩

/-- C2 counterexample: when the enumeration step raises, the exception
propagates out of stage_dictionary_listing with the working directory
still set to the resolved dictionary directory, not restored to the
original /home/build. -/
theorem cwd_restore_counterexample :
    stage_dictionary_listing (fun _ => Except.error "OSError") "/tmp/dic1" ⟨"/home/build"⟩
        = Except.error ("OSError", ⟨"/tmp/dic1"⟩) ∧
      (⟨"/tmp/dic1"⟩ : ProcState) ≠ ⟨"/home/build"⟩ :=
  ⟨rfl, by decide⟩

/-- C2 amended: the working directory is restored when the enumeration
step completes normally; when the enumeration step raises, the
exception propagates with the working directory left at the resolved
directory. -/
theorem cwd_restore_amended (enum : String → Except String (List String))
    (dicdir : String) (st : ProcState) :
    (∀ files, enum dicdir = Except.ok files →
        stage_dictionary_listing enum dicdir st = Except.ok (files, ⟨st.cwd⟩)) ∧
      (∀ e, enum dicdir = Except.error e →
        stage_dictionary_listing enum dicdir st = Except.error (e, ⟨dicdir⟩)) := by
  constructor
  · intro files hf
    simp [stage_dictionary_listing, hf]
  · intro e he
    simp [stage_dictionary_listing, he]

/-- Witness for the amended C2 on a successful enumeration: the final
working directory is the original one. -/
theorem cwd_restore_amended_witness :
    stage_dictionary_listing (fun _ => Except.ok ["sys.dic"]) "/tmp/dic1" ⟨"/home/build"⟩
      = Except.ok (["sys.dic"], ⟨"/home/build"⟩) :=
  (cwd_restore_amended (fun _ => Except.ok ["sys.dic"]) "/tmp/dic1" ⟨"/home/build"⟩).1
    ["sys.dic"] rfl

/-- C1 counterexample: a wrapper file whose first line starts with the
marker but is not equal to it (SWIG writes the marker followed by the
generator URL) is still deleted, so deletion is not conditioned on an
exact match of the first line. -/
theorem pruner_exact_match_counterexample :
    rfFirstLineSwig ("src/MeCab/MeCab.py".toList)
        = some ("# This file was automatically generated by SWIG (http://www.swig.org).\n".toList) ∧
      ("# This file was automatically generated by SWIG (http://www.swig.org).\n".toList)
        ≠ SWIG_WRAPPER_MARKER ∧
      discard_swig_wrappers rfFirstLineSwig ["src/MeCab/MeCab.i".toList]
        = ["src/MeCab/MeCab.py".toList] :=
  ⟨rfl, by decide, by decide⟩

/-- C1 amended: the pruner deletes a candidate wrapper file only if the
file's first line starts with the generator-signature marker string;
every file whose first line does not begin with the marker is left
untouched. -/
theorem pruner_deletes_only_marked (firstLine : List Char → Option (List Char))
    (sources : List (List Char)) (w : List Char)
    (hw : w ∈ discard_swig_wrappers firstLine sources) :
    ∃ first, firstLine w = some first ∧ SWIG_WRAPPER_MARKER.isPrefixOf first = true := by
  unfold discard_swig_wrappers at hw
  rw [List.mem_filterMap] at hw
  obtain ⟨src, _, hsrc⟩ := hw
  dsimp only at hsrc
  split at hsrc
  · split at hsrc
    · rename_i first hfl
      split at hsrc
      · rename_i h2
        have hww : (splitext src).1 ++ ".py".toList = w := Option.some.inj hsrc
        exact ⟨first, by rw [← hww]; exact hfl, h2⟩
      · exact absurd hsrc (by simp)
    · exact absurd hsrc (by simp)
  · exact absurd hsrc (by simp)

/-- Witness for the amended C1: the deleted wrapper of the concrete
instance indeed has a first line starting with the marker. -/
theorem pruner_deletes_only_marked_witness :
    ∃ first, rfFirstLineSwig ("src/MeCab/MeCab.py".toList) = some first ∧
      SWIG_WRAPPER_MARKER.isPrefixOf first = true :=
  pruner_deletes_only_marked rfFirstLineSwig ["src/MeCab/MeCab.i".toList]
    ("src/MeCab/MeCab.py".toList) (by decide)

-- C7 helper: looking a key up after the locale filter either finds the
-- same binding the ambient environment had (non-locale key) or nothing
-- (locale key).
lemma find?_locale_filter (env : List (String × String)) (k : String) :
    ((env.filter fun kv => !(isLocaleVar kv.1)).find? fun kv => kv.1 == k)
      = if isLocaleVar k then none else env.find? fun kv => kv.1 == k := by
  induction env with
  | nil => simp
  | cons kv env ih =>
    by_cases hk : kv.1 = k
    · subst hk
      by_cases hl : isLocaleVar kv.1
      · simp [List.filter_cons, hl, ih, List.find?_cons]
      · simp only [List.filter_cons, hl, Bool.not_false, if_pos]
        simp [List.find?_cons, hl]
    · have hbeq : (kv.1 == k) = false := beq_eq_false_iff_ne.mpr hk
      by_cases hl : isLocaleVar kv.1
      · simp [List.filter_cons, hl, ih, List.find?_cons, hbeq]
      · simp [List.filter_cons, hl, List.find?_cons, hbeq, ih]

-- C7 helper: a full description of one lookup in the constructed
-- subprocess environment.
lemma envLookup_clocale (env : List (String × String)) (k : String) :
    envLookup (clocale_env env) k =
      if k = "LC_ALL" then some "C"
      else if isLocaleVar k then none else envLookup env k := by
  unfold clocale_env envLookup
  rw [List.find?_append, find?_locale_filter]
  by_cases hk : k = "LC_ALL"
  · subst hk
    simp [List.find?_cons, show isLocaleVar "LC_ALL" = true from by decide]
  · have hbeq : (("LC_ALL" : String) == k) = false := beq_eq_false_iff_ne.mpr (Ne.symm hk)
    by_cases hl : isLocaleVar k
    · simp [hl, hk, List.find?_cons, hbeq]
    · simp only [hl, if_neg hk, if_false]
      cases h : env.find? fun kv => kv.1 == k with
      | none => simp [List.find?_cons, hbeq]
      | some kv => simp

/-- C7: the constructed subprocess environment binds no variable named
LANG or LANGUAGE and none whose name starts with LC_ other than LC_ALL,
which is bound to C; consequently two ambient environments agreeing on
every non-locale variable yield the same constructed environment. -/
theorem clocale_env_locale_free (env1 env2 : List (String × String))
    (hagree : ∀ k, isLocaleVar k = false → envLookup env1 k = envLookup env2 k) :
    (∀ k, isLocaleVar k = true → k ≠ "LC_ALL" → envLookup (clocale_env env1) k = none) ∧
      envLookup (clocale_env env1) "LC_ALL" = some "C" ∧
      (∀ k, envLookup (clocale_env env1) k = envLookup (clocale_env env2) k) := by
  refine ⟨?_, ?_, ?_⟩
  · intro k hl hk
    rw [envLookup_clocale, if_neg hk, if_pos hl]
  · rw [envLookup_clocale, if_pos rfl]
  · intro k
    rw [envLookup_clocale, envLookup_clocale]
    by_cases hk : k = "LC_ALL"
    · simp [hk]
    · by_cases hl : isLocaleVar k
      · simp [hk, hl]
      · simp only [if_neg hk, hl, if_false]
        exact hagree k (by simpa using hl)

/-- Witness for C7 on two concrete ambient environments that differ
only in their locale-category variables. -/
theorem clocale_env_locale_free_witness :
    envLookup (clocale_env envAmbient1) "LC_COLLATE" = none ∧
      envLookup (clocale_env envAmbient1) "LC_ALL" = some "C" ∧
      envLookup (clocale_env envAmbient1) "LANG" = envLookup (clocale_env envAmbient2) "LANG" ∧
      envLookup (clocale_env envAmbient1) "PATH" = envLookup (clocale_env envAmbient2) "PATH" := by
  have hagree : ∀ k, isLocaleVar k = false → envLookup envAmbient1 k = envLookup envAmbient2 k := by
    intro k hk
    by_cases hp : k = "PATH"
    · subst hp; rfl
    · have h1 : (("PATH" : String) == k) = false := beq_eq_false_iff_ne.mpr (Ne.symm hp)
      have h2 : (("LANG" : String) == k) = false := by
        refine beq_eq_false_iff_ne.mpr ?_
        intro h; rw [← h] at hk; exact absurd hk (by decide)
      have h3 : (("LC_COLLATE" : String) == k) = false := by
        refine beq_eq_false_iff_ne.mpr ?_
        intro h; rw [← h] at hk; exact absurd hk (by decide)
      have h4 : (("LC_ALL" : String) == k) = false := by
        refine beq_eq_false_iff_ne.mpr ?_
        intro h; rw [← h] at hk; exact absurd hk (by decide)
      simp [envAmbient1, envAmbient2, envLookup, List.find?_cons, h1, h2, h3, h4]
  have h := clocale_env_locale_free envAmbient1 envAmbient2 hagree
  exact ⟨h.1 "LC_COLLATE" (by decide) (by decide), h.2.1, h.2.2 "LANG", h.2.2 "PATH"⟩

/-- C8: in bundled mode the link-library list starts with mecab and is
extended with the tokens of the first Makefile line starting with
LIBS =, keeping every whitespace-separated token of the text after the
first equals sign whose first two characters are -l with that two-char
text stripped; lines after the first match are ignored. -/
theorem bundled_libs_from_makefile (pre post : List (List Char)) (l : List Char)
    (hpre : ∀ x ∈ pre, libsLineMarker.isPrefixOf x = false)
    (hl : libsLineMarker.isPrefixOf l = true) :
    bundled_link_libraries (pre ++ l :: post) = "mecab".toList :: libsFromLine l := by
  unfold bundled_link_libraries
  congr 1
  induction pre with
  | nil => simp [scanMakefileLibs, hl]
  | cons x pre ih =>
    have hx : libsLineMarker.isPrefixOf x = false := hpre x (List.mem_cons_self x pre)
    simp only [List.cons_append, scanMakefileLibs, hx, Bool.false_eq_true, if_false]
    exact ih (fun y hy => hpre y (List.mem_cons_of_mem _ hy))

/-- Witness for C8: a Makefile with a non-matching line before and a
second LIBS line after the first; only the first LIBS line contributes,
and non -l tokens are dropped. -/
theorem bundled_libs_from_makefile_witness :
    bundled_link_libraries
        (pyFileLines ("CC = gcc\nLIBS = -liconv -lpthread ext.o -lm\nLIBS = -lother\n".toList))
      = ["mecab".toList, "iconv".toList, "pthread".toList, "m".toList] := by
  have hlines : pyFileLines ("CC = gcc\nLIBS = -liconv -lpthread ext.o -lm\nLIBS = -lother\n".toList)
      = ["CC = gcc\n".toList, "LIBS = -liconv -lpthread ext.o -lm\n".toList, "LIBS = -lother\n".toList] := by
    decide
  rw [hlines]
  have h := bundled_libs_from_makefile ["CC = gcc\n".toList] ["LIBS = -lother\n".toList]
    ("LIBS = -liconv -lpthread ext.o -lm\n".toList) (by decide) (by decide)
  rw [show (["CC = gcc\n".toList] ++ "LIBS = -liconv -lpthread ext.o -lm\n".toList :: ["LIBS = -lother\n".toList])
      = ["CC = gcc\n".toList, "LIBS = -liconv -lpthread ext.o -lm\n".toList, "LIBS = -lother\n".toList] from rfl] at h
  rw [h]
  decide

-- C5/C9 helpers: each resolution stage evaluated under hypotheses on
-- the ambient state.

lemma dicdirFromEnvDicdir_none (s : Sys)
    (h : ∀ d, s.env "MECAB_DICDIR" = some d → validDir s d = false) :
    dicdirFromEnvDicdir s = none := by
  unfold dicdirFromEnvDicdir
  cases he : s.env "MECAB_DICDIR" with
  | none => rfl
  | some d => simp [h d he]

lemma dicdirFromEnvDicpath_none (s : Sys)
    (h : ∀ p, s.env "MECAB_DICPATH" = some p →
      (pySplitSep s.pathsep p).find? (validDir s) = none) :
    dicdirFromEnvDicpath s = none := by
  unfold dicdirFromEnvDicpath
  cases he : s.env "MECAB_DICPATH" with
  | none => rfl
  | some p => simp [h p he]

lemma dicdirFromEnvMecabrc_none (s : Sys)
    (h : ∀ rc v, s.env "MECABRC" = some rc →
      dicdir_from_mecabrc s rc = some v → validDir s v = false) :
    dicdirFromEnvMecabrc s = none := by
  unfold dicdirFromEnvMecabrc
  cases he : s.env "MECABRC" with
  | none => rfl
  | some rc =>
    cases hv : dicdir_from_mecabrc s rc with
    | none => simp [hv]
    | some v => simp [hv, h rc v he hv]

lemma firstRcDicdir_none (s : Sys) (rcs : List String)
    (h : ∀ rc ∈ rcs, ∀ v, dicdir_from_mecabrc s rc = some v → validDir s v = false) :
    firstRcDicdir s rcs = none := by
  induction rcs with
  | nil => rfl
  | cons rc rcs ih =>
    unfold firstRcDicdir
    cases hv : dicdir_from_mecabrc s rc with
    | none => exact ih (fun x hx => h x (List.mem_cons_of_mem _ hx))
    | some v =>
      have hval := h rc (List.mem_cons_self rc rcs) v hv
      simp only [hval, Bool.false_eq_true, if_false]
      exact ih (fun x hx => h x (List.mem_cons_of_mem _ hx))

/-- C5: the dictionary resolver applies its sources in fixed precedence
with the first match winning: a MECAB_DICDIR naming an existing
directory wins outright (with that directory's listing), else the first
existing entry of MECAB_DICPATH, else the MECABRC configuration file,
else the fixed fallback configuration files in order. -/
theorem dic_resolver_precedence (s : Sys) :
    (∀ d, s.env "MECAB_DICDIR" = some d → validDir s d = true →
        mecab_dictionary_contents s = (some (s.abspath d), s.listDir (s.abspath d))) ∧
      (∀ p d,
        (∀ d0, s.env "MECAB_DICDIR" = some d0 → validDir s d0 = false) →
        s.env "MECAB_DICPATH" = some p →
        (pySplitSep s.pathsep p).find? (validDir s) = some d →
        mecab_dictionary_contents s = (some (s.abspath d), s.listDir (s.abspath d))) ∧
      (∀ rc v,
        (∀ d0, s.env "MECAB_DICDIR" = some d0 → validDir s d0 = false) →
        (∀ p, s.env "MECAB_DICPATH" = some p →
          (pySplitSep s.pathsep p).find? (validDir s) = none) →
        s.env "MECABRC" = some rc →
        dicdir_from_mecabrc s rc = some v → validDir s v = true →
        mecab_dictionary_contents s = (some (s.abspath v), s.listDir (s.abspath v))) ∧
      ((∀ d0, s.env "MECAB_DICDIR" = some d0 → validDir s d0 = false) →
        (∀ p, s.env "MECAB_DICPATH" = some p →
          (pySplitSep s.pathsep p).find? (validDir s) = none) →
        (∀ rc v, s.env "MECABRC" = some rc →
          dicdir_from_mecabrc s rc = some v → validDir s v = false) →
        mecab_dictionary_contents s =
          match firstRcDicdir s fallbackRcs with
          | some d => (some d, s.listDir d)
          | none => (none, [])) := by
  refine ⟨?_, ?_, ?_, ?_⟩
  · intro d hd hv
    have h1 : dicdirFromEnvDicdir s = some (s.abspath d) := by
      simp [dicdirFromEnvDicdir, hd, hv]
    simp [mecab_dictionary_contents, resolvedDicdir, h1]
  · intro p d h0 hp hfind
    have h1 : dicdirFromEnvDicdir s = none := dicdirFromEnvDicdir_none s h0
    have h2 : dicdirFromEnvDicpath s = some (s.abspath d) := by
      simp [dicdirFromEnvDicpath, hp, hfind]
    simp [mecab_dictionary_contents, resolvedDicdir, h1, h2]
  · intro rc v h0 hpnone hrc hv hvalid
    have h1 : dicdirFromEnvDicdir s = none := dicdirFromEnvDicdir_none s h0
    have h2 : dicdirFromEnvDicpath s = none := dicdirFromEnvDicpath_none s hpnone
    have h3 : dicdirFromEnvMecabrc s = some (s.abspath v) := by
      simp [dicdirFromEnvMecabrc, hrc, hv, hvalid]
    simp [mecab_dictionary_contents, resolvedDicdir, h1, h2, h3]
  · intro h0 hpnone hrcnone
    have h1 : dicdirFromEnvDicdir s = none := dicdirFromEnvDicdir_none s h0
    have h2 : dicdirFromEnvDicpath s = none := dicdirFromEnvDicpath_none s hpnone
    have h3 : dicdirFromEnvMecabrc s = none := dicdirFromEnvMecabrc_none s hrcnone
    cases h4 : firstRcDicdir s fallbackRcs with
    | none => simp [mecab_dictionary_contents, resolvedDicdir, h1, h2, h3, h4]
    | some d => simp [mecab_dictionary_contents, resolvedDicdir, h1, h2, h3, h4]

/-- Witness for C5: MECAB_DICDIR wins although MECAB_DICPATH is also
set, and with MECAB_DICDIR unset, MECAB_DICPATH selects /tmp/dic2, the
first entry of /no/such:/tmp/dic2 that is an existing directory. -/
theorem dic_resolver_precedence_witness :
    mecab_dictionary_contents sysDic1 = (some "/tmp/dic1", ["a.dic", "b.dic"]) ∧
      mecab_dictionary_contents sysDic2 = (some "/tmp/dic2", ["sys.dic"]) := by
  constructor
  · have h := (dic_resolver_precedence sysDic1).1 "/tmp/dic1" (by decide) (by decide)
    rw [h]
    decide
  · have h := (dic_resolver_precedence sysDic2).2.1 "/no/such:/tmp/dic2" "/tmp/dic2"
      (fun d0 hd0 => nomatch hd0) (by decide) (by decide)
    rw [h]
    decide

/-- C9: when no resolution source yields an existing directory, the
resolver returns no directory and an empty file list, as a normal
return value: bundling is silently skipped, with no exception and no
process termination modelled. -/
theorem dic_resolver_unresolved_silent (s : Sys)
    (h1 : ∀ d, s.env "MECAB_DICDIR" = some d → validDir s d = false)
    (h2 : ∀ p, s.env "MECAB_DICPATH" = some p →
      (pySplitSep s.pathsep p).find? (validDir s) = none)
    (h3 : ∀ rc v, s.env "MECABRC" = some rc →
      dicdir_from_mecabrc s rc = some v → validDir s v = false)
    (h4 : ∀ rc ∈ fallbackRcs, ∀ v,
      dicdir_from_mecabrc s rc = some v → validDir s v = false) :
    mecab_dictionary_contents s = (none, []) := by
  have g1 : dicdirFromEnvDicdir s = none := dicdirFromEnvDicdir_none s h1
  have g2 : dicdirFromEnvDicpath s = none := dicdirFromEnvDicpath_none s h2
  have g3 : dicdirFromEnvMecabrc s = none := dicdirFromEnvMecabrc_none s h3
  have g4 : firstRcDicdir s fallbackRcs = none := firstRcDicdir_none s fallbackRcs h4
  simp [mecab_dictionary_contents, resolvedDicdir, g1, g2, g3, g4]

/-- Witness for C9 in an ambient state with no relevant environment
variables, no readable configuration files and no directories. -/
theorem dic_resolver_unresolved_silent_witness :
    mecab_dictionary_contents sysNone = (none, []) :=
  dic_resolver_unresolved_silent sysNone
    (fun _ hd => nomatch hd)
    (fun _ hp => nomatch hp)
    (fun _ _ hrc _ => nomatch hrc)
    (fun _ _ _ hv => nomatch hv)

-- C6 helpers.

lemma dropWhile_append_sat (p : Char → Bool) (xs ys : List Char)
    (h : ∀ c ∈ xs, p c = true) :
    (xs ++ ys).dropWhile p = ys.dropWhile p := by
  induction xs with
  | nil => rfl
  | cons c xs ih =>
    have hc : p c = true := h c (List.mem_cons_self c xs)
    simp only [List.cons_append, List.dropWhile_cons, hc, if_pos]
    exact ih (fun x hx => h x (List.mem_cons_of_mem _ hx))

lemma rc_scan_skip (pre t : List (List Char))
    (hpre : ∀ l ∈ pre, stripL l = [] ∨ (stripL l).head? = some ';') :
    dicdir_from_mecabrc_lines (pre ++ t) = dicdir_from_mecabrc_lines t := by
  induction pre with
  | nil => rfl
  | cons l pre ih =>
    have htail := fun x hx => hpre x (List.mem_cons_of_mem _ hx)
    cases hpre l (List.mem_cons_self l pre) with
    | inl h =>
      simp only [List.cons_append, dicdir_from_mecabrc_lines, h, if_pos]
      exact ih htail
    | inr h =>
      have hne : ¬ stripL l = [] := by
        intro e; rw [e] at h; exact Option.noConfusion h
      simp only [List.cons_append, dicdir_from_mecabrc_lines, hne, if_false, h, if_pos]
      exact ih htail

lemma rc_line_dicdir (l tail6 : List Char) (rest : List (List Char))
    (h : stripL l = 'd' :: 'i' :: 'c' :: 'd' :: 'i' :: 'r' :: tail6) :
    dicdir_from_mecabrc_lines (l :: rest) =
      match dicdirValueStep (lstripL tail6) with
      | some r => r
      | none => dicdir_from_mecabrc_lines rest := by
  have hsemi : ¬ (('d' :: 'i' :: 'c' :: 'd' :: 'i' :: 'r' :: tail6).head? = some ';') := by
    intro hc
    exact absurd (Option.some.inj hc) (by decide)
  have htake : List.take 6 ('d' :: 'i' :: 'c' :: 'd' :: 'i' :: 'r' :: tail6) = "dicdir".toList := rfl
  simp only [dicdir_from_mecabrc_lines, h]
  rw [if_neg (by simp), if_neg hsemi, if_pos htake]
  rfl

/-- C6: the dicdir parser skips blank lines and comment lines starting
with a semicolon, accepts both the key-equals-value and the
key-whitespace-value forms, and returns the value with surrounding
whitespace trimmed. -/
theorem mecabrc_parser_correct
    (pre rest : List (List Char)) (l1 l2 w sp1 sp2 sp3 : List Char)
    (hpre : ∀ l ∈ pre, stripL l = [] ∨ (stripL l).head? = some ';')
    (hw0 : w ≠ []) (hw1 : lstripL w = w) (hwEq : w.head? ≠ some '=')
    (hsp1 : ∀ c ∈ sp1, isSpaceChar c = true)
    (hsp2 : ∀ c ∈ sp2, isSpaceChar c = true)
    (hsp3 : ∀ c ∈ sp3, isSpaceChar c = true)
    (h1 : stripL l1 = 'd' :: 'i' :: 'c' :: 'd' :: 'i' :: 'r' :: (sp1 ++ '=' :: (sp2 ++ w)))
    (h2 : stripL l2 = 'd' :: 'i' :: 'c' :: 'd' :: 'i' :: 'r' :: (sp3 ++ w)) :
    dicdir_from_mecabrc_lines (pre ++ l1 :: rest) = some w ∧
      dicdir_from_mecabrc_lines (pre ++ l2 :: rest) = some w := by
  have e2 : lstripL (sp2 ++ w) = w := by
    unfold lstripL
    rw [dropWhile_append_sat _ _ _ hsp2]
    exact hw1
  constructor
  · rw [rc_scan_skip pre _ hpre, rc_line_dicdir l1 _ rest h1]
    have e1 : lstripL (sp1 ++ '=' :: (sp2 ++ w)) = '=' :: (sp2 ++ w) := by
      unfold lstripL
      rw [dropWhile_append_sat _ _ _ hsp1, List.dropWhile_cons, if_neg (by decide)]
    rw [e1]
    simp [dicdirValueStep, e2, hw0]
  · rw [rc_scan_skip pre _ hpre, rc_line_dicdir l2 _ rest h2]
    have e3 : lstripL (sp3 ++ w) = w := by
      unfold lstripL
      rw [dropWhile_append_sat _ _ _ hsp3]
      exact hw1
    rw [e3]
    simp [dicdirValueStep, hw0, hwEq]

/-- Witness for C6: the configuration content of the claim, in both the
equals and the whitespace form, yields the trimmed /tmp/dic3. -/
theorem mecabrc_parser_correct_witness :
    dicdir_from_mecabrc_lines (pyFileLines ("; comment\n dicdir = /tmp/dic3 \n".toList))
        = some ("/tmp/dic3".toList) ∧
      dicdir_from_mecabrc_lines (pyFileLines ("; comment\n dicdir /tmp/dic3 \n".toList))
        = some ("/tmp/dic3".toList) := by
  have h := mecabrc_parser_correct ["; comment\n".toList] []
    (" dicdir = /tmp/dic3 \n".toList) (" dicdir /tmp/dic3 \n".toList)
    ("/tmp/dic3".toList) [' '] [' '] [' ']
    (by decide) (by decide) (by decide) (by decide)
    (by decide) (by decide) (by decide) (by decide) (by decide)
  constructor
  · rw [show pyFileLines ("; comment\n dicdir = /tmp/dic3 \n".toList)
        = ["; comment\n".toList] ++ (" dicdir = /tmp/dic3 \n".toList) :: [] from by decide]
    exact h.1
  · rw [show pyFileLines ("; comment\n dicdir /tmp/dic3 \n".toList)
        = ["; comment\n".toList] ++ (" dicdir /tmp/dic3 \n".toList) :: [] from by decide]
    exact h.2
